import Mathlib

/-!
Verification of the GraphQL code generator (`gen.go` and `pkg/schema`).

The Go program reads an introspected GraphQL schema plus a user
configuration and emits Go source text: name resolution
(`getNameNullable`), placement (`getFile`), per-kind renderers, an
output-file accumulator (`OutputFile`, `OutputFiles`) and the driver
loop from `main`.  Fatal conditions in the Go code (`log.Fatalf`,
`panic`, nil-pointer dereference) are modelled with `Except.error`.
Literal brace characters inside generated Go text are written with the
escapes `\x7b` and `\x7d`.
-/

/-- Kinds of schema types, from `pkg/schema/typekind/typekind.go`. -/
inductive TypeKind where
  | scalar
  | object
  | interface
  | union
  | enum
  | inputObject
  | list
  | nonNull
deriving DecidableEq, Repr

/-- String form of a kind, as the Go constants read. -/
def TypeKind.str : TypeKind → String
  | .scalar => "SCALAR"
  | .object => "OBJECT"
  | .interface => "INTERFACE"
  | .union => "UNION"
  | .enum => "ENUM"
  | .inputObject => "INPUT_OBJECT"
  | .list => "LIST"
  | .nonNull => "NON_NULL"

mutual
/-- `schema.Type` from `pkg/schema/schema.go`.  Constructor arguments, in
order: `Kind`, `Name`, `Description`, `Fields`, `Interfaces`,
`PossibleTypes`, `OfType`, and `EnumValues` as (name, description) pairs.
The `EnumValues` field is referenced by `gen.go` (`renderEnum`) but is
commented out in the `schema.go` under `src/`; it is modelled from the
spec: an ordered sequence of (name, description) pairs present for Enum
types. -/
inductive SchemaType : Type where
  | mk : TypeKind → Option String → Option String → List SchemaField → List SchemaType →
      List SchemaType → Option SchemaType → List (String × Option String) → SchemaType
/-- `schema.Field`: `Name`, `Description`, `Type`, `IsDeprecated`,
`DeprecationReason`. -/
inductive SchemaField : Type where
  | mk : String → Option String → SchemaType → Bool → Option String → SchemaField
end

def SchemaType.kind : SchemaType → TypeKind
  | .mk k _ _ _ _ _ _ _ => k

def SchemaType.name : SchemaType → Option String
  | .mk _ n _ _ _ _ _ _ => n

def SchemaType.description : SchemaType → Option String
  | .mk _ _ d _ _ _ _ _ => d

def SchemaType.fields : SchemaType → List SchemaField
  | .mk _ _ _ fs _ _ _ _ => fs

def SchemaType.interfaces : SchemaType → List SchemaType
  | .mk _ _ _ _ is _ _ _ => is

def SchemaType.possibleTypes : SchemaType → List SchemaType
  | .mk _ _ _ _ _ ps _ _ => ps

def SchemaType.ofType : SchemaType → Option SchemaType
  | .mk _ _ _ _ _ _ o _ => o

def SchemaType.enumValues : SchemaType → List (String × Option String)
  | .mk _ _ _ _ _ _ _ evs => evs

def SchemaField.name : SchemaField → String
  | .mk n _ _ _ _ => n

def SchemaField.description : SchemaField → Option String
  | .mk _ d _ _ _ => d

def SchemaField.type : SchemaField → SchemaType
  | .mk _ _ t _ _ => t

/-- A named type with no fields, children or wrapped type; the shape of
schema nodes used as concrete test inputs. -/
def namedType (k : TypeKind) (n : String) : SchemaType :=
  .mk k (some n) none [] [] [] none []

/-- A `List` wrapper node around `t` (`name` unset, `ofType` set). -/
def listOf (t : SchemaType) : SchemaType :=
  .mk .list none none [] [] [] (some t) []

/-- A `NonNull` wrapper node around `t` (`name` unset, `ofType` set). -/
def nonNullOf (t : SchemaType) : SchemaType :=
  .mk .nonNull none none [] [] [] (some t) []

/-- `FieldConfig` from `gen.go`: `Name`, `Import`, `Type`.  (`Import` is
a reserved word in Lean, so the field is called `imp`.) -/
structure FieldConfig where
  name : String
  imp : String
  type : String
deriving DecidableEq, Repr

/-- The zero value of `FieldConfig`, produced by a Go map lookup miss. -/
def emptyFieldConfig : FieldConfig := { name := "", imp := "", type := "" }

/-- `TypeConfig` from `gen.go`: `Name`, `Import`, `Type`, `Fields`,
`File`.  The Go `Fields` map is an association list here. -/
structure TypeConfig where
  name : String
  imp : String
  type : String
  fields : List (String × FieldConfig)
  file : String
deriving DecidableEq, Repr

/-- The zero value of `TypeConfig`. -/
def emptyTypeConfig : TypeConfig :=
  { name := "", imp := "", type := "", fields := [], file := "" }

/-- `ScalarConfig` from `gen.go`: `Name`, `Import`, `Type`, `File`. -/
structure ScalarConfig where
  name : String
  imp : String
  type : String
  file : String
deriving DecidableEq, Repr

/-- The zero value of `ScalarConfig`. -/
def emptyScalarConfig : ScalarConfig :=
  { name := "", imp := "", type := "", file := "" }

/-- `Config` from `gen.go`: `Types` and `Scalars` maps, as association
lists (the Go code only ever looks keys up, never iterates them). -/
structure Config where
  types : List (String × TypeConfig)
  scalars : List (String × ScalarConfig)

/-- The empty configuration. -/
def emptyConfig : Config := { types := [], scalars := [] }

/-- `isPredeclaredType` from `gen.go`: the Go predeclared type names. -/
def isPredeclaredType (t : String) : Bool :=
  ["bool", "byte", "complex64", "complex128", "error", "float32", "float64",
   "int", "int8", "int16", "int32", "int64", "rune", "string",
   "uint", "uint8", "uint16", "uint32", "uint64", "uintptr"].contains t

/-- `defaultScalars` from `gen.go`: built-in overrides for the five
standard GraphQL scalars.  Note `ID` sets only `Type`, not `Name`. -/
def defaultScalars : List (String × ScalarConfig) :=
  [("Int", { name := "int32", imp := "", type := "", file := "" }),
   ("Float", { name := "float64", imp := "", type := "", file := "" }),
   ("String", { name := "string", imp := "", type := "", file := "" }),
   ("Boolean", { name := "bool", imp := "", type := "", file := "" }),
   ("ID", { name := "", imp := "", type := "string", file := "" })]

/-- `getTypeConfig` from `gen.go`: map lookup, zero value on a miss. -/
def getTypeConfig (config : Config) (name : String) : TypeConfig :=
  (config.types.lookup name).getD emptyTypeConfig

/-- `getScalarConfig` from `gen.go`: user config first, then the
built-in defaults, then the zero value. -/
def getScalarConfig (config : Config) (name : String) : ScalarConfig :=
  match config.scalars.lookup name with
  | some cfg => cfg
  | none =>
    match defaultScalars.lookup name with
    | some cfg => cfg
    | none => emptyScalarConfig

/-- `getNameNullable` from `gen.go`.  The `prefix` variable is `pfx`
here.  Go's `log.Fatalf` and panics (including the nil-pointer
dereferences of `*typ.Name` / `*typ.OfType`) are `Except.error`; the Go
messages interpolate values with `%q`/`%#+v`, modelled by plain
concatenation resp. a fixed message. -/
def getNameNullable (config : Config) : SchemaType → Bool → Except String String
  | .mk kind name _ _ _ _ ofType _, nullable =>
    let pfx := if nullable then "*" else ""
    match kind with
    | .scalar =>
      match name with
      | none => .error ("panic: nil name dereference")
      | some n =>
        let cfg := getScalarConfig config n
        if cfg.name ≠ "" ∧ isPredeclaredType cfg.name then
          if cfg.type ≠ "" ∧ cfg.type ≠ cfg.name then
            .error ("the scalar named \"" ++ cfg.name ++ "\" could not have the type \"" ++
              cfg.type ++ "\"")
          else
            .ok (pfx ++ cfg.name)
        else if cfg.name ≠ "" then
          .ok (pfx ++ cfg.name)
        else
          .ok (pfx ++ n)
    | .nonNull =>
      match ofType with
      | none => .error ("panic: nil OfType dereference")
      | some t => getNameNullable config t false
    | .list =>
      match ofType with
      | none => .error ("panic: nil OfType dereference")
      | some t =>
        match getNameNullable config t true with
        | .error e => .error e
        | .ok s => .ok ("[]" ++ s)
    | .interface =>
      match name with
      | none => .error ("panic: unable to get name for type")
      | some n => .ok n
    | _ =>
      match name with
      | none => .error ("panic: unable to get name for type")
      | some n => .ok (pfx ++ n)

/-- `getName` from `gen.go`. -/
def getName (config : Config) (typ : SchemaType) : Except String String :=
  getNameNullable config typ true

/-- `getFieldType` from `gen.go`: a per-field config override wins,
otherwise the field's type is resolved with `nullable = true`. -/
def getFieldType (config : Config) (typ : SchemaType) (field : SchemaField) :
    Except String String :=
  match typ.name with
  | none => .error ("panic: nil name dereference")
  | some tn =>
    let cfg := getTypeConfig config tn
    let fieldCfg := (cfg.fields.lookup field.name).getD emptyFieldConfig
    if fieldCfg.type ≠ "" then .ok fieldCfg.type
    else getName config field.type

/-- `getFile` from `gen.go`: placement of a type into an output file;
`""` means "do not emit".  The final `panic` for unhandled kinds is an
`Except.error`. -/
def getFile (config : Config) (typ : SchemaType) : Except String String := do
  let nm ← getNameNullable config typ false
  if isPredeclaredType nm then
    .ok ("")
  else
    match typ.kind with
    | .scalar =>
      match typ.name with
      | none => .error ("panic: nil name dereference")
      | some n =>
        let cfg := getScalarConfig config n
        if cfg.file ≠ "" then .ok cfg.file else .ok ("scalars.go")
    | .object => .ok ("types.go")
    | .enum => .ok ("enums.go")
    | .interface => .ok ("interfaces.go")
    | .union => .ok ("unions.go")
    | .inputObject => .ok ("")
    | _ => .error ("panic: don't know how to get file")

/-- `renderComment` from `gen.go`: prefix every line of `s` with
`pre`. -/
def renderComment (pre s : String) : String :=
  pre ++ s.replace ("\n") ("\n" ++ pre) ++ "\n"

/-- The optional leading doc comment every renderer emits. -/
def descComment (pre : String) (d : Option String) : String :=
  match d with
  | some s => renderComment pre s
  | none => ""

/-- `strings.Title` as used by `gen.go` on GraphQL field names: the
field names are single words, so only the first character is
upper-cased. -/
def titleWord (s : String) : String :=
  match s.data with
  | [] => ""
  | c :: cs => String.mk (c.toUpper :: cs)

/-- Effectful map over a list in the `Except` monad, mirroring the Go
`for` loops that may abort through a fatal resolution error. -/
def exMapM (f : α → Except String β) : List α → Except String (List β)
  | [] => .ok []
  | a :: as => do
    let b ← f a
    let bs ← exMapM f as
    .ok (b :: bs)

/-- One struct-field line of the generated object declaration
(`renderObject` loop body, including the optional field comment). -/
def objectFieldDecl (config : Config) (typ : SchemaType) (f : SchemaField) :
    Except String String := do
  let ft ← getFieldType config typ f
  .ok (descComment ("\t// ") f.description ++ "\tfield_" ++ f.name ++ " " ++ ft ++
    " `json:\"" ++ f.name ++ "\"`\n")

/-- One generated accessor method of an object (`renderObject`). -/
def objectAccessor (config : Config) (typ : SchemaType) (nm : String) (f : SchemaField) :
    Except String String := do
  let ft ← getFieldType config typ f
  .ok ("\nfunc (o " ++ nm ++ ") " ++ titleWord f.name ++ "() " ++ ft ++
    " \x7b\n\treturn o.field_" ++ f.name ++ "\n\x7d\n")

/-- One field of the shadow struct inside the generated
`UnmarshalJSON` (`renderObject`): interface-typed fields are captured
as raw JSON, the rest decode directly. -/
def objectShadowField (config : Config) (typ : SchemaType) (f : SchemaField) :
    Except String String :=
  if f.type.kind = .interface then
    .ok ("\t\tfield_" ++ f.name ++ " json.RawMessage `json:\"" ++ f.name ++ "\"`\n")
  else do
    let ft ← getFieldType config typ f
    .ok ("\t\tfield_" ++ f.name ++ " " ++ ft ++ " `json:\"" ++ f.name ++ "\"`\n")

/-- One assignment in the generated `UnmarshalJSON` (`renderObject`):
interface-typed fields go through the interface's polymorphic decode
function. -/
def objectAssign (config : Config) (typ : SchemaType) (f : SchemaField) :
    Except String String :=
  if f.type.kind = .interface then do
    let ft ← getFieldType config typ f
    .ok ("\to.field_" ++ f.name ++ ", err = " ++ ft ++ "_UnmarshalJSON(v.field_" ++
      f.name ++ ")\n\tif err != nil \x7b\n\t\treturn err\n\t\x7d\n")
  else
    .ok ("\to.field_" ++ f.name ++ " = v.field_" ++ f.name ++ "\n")

/-- `renderObject` from `gen.go`: the record type, one accessor per
field, and the custom `UnmarshalJSON`. -/
def renderObject (config : Config) (typ : SchemaType) :
    Except String (List String × String) := do
  let nm ← getNameNullable config typ false
  let fieldBlocks ← exMapM (objectFieldDecl config typ) typ.fields
  let accessors ← exMapM (objectAccessor config typ nm) typ.fields
  let shadowFields ← exMapM (objectShadowField config typ) typ.fields
  let assigns ← exMapM (objectAssign config typ) typ.fields
  let chunk :=
    descComment ("// ") typ.description ++
    "type " ++ nm ++ " struct \x7b\n" ++
    String.intercalate ("\n") fieldBlocks ++
    "\x7d\n" ++
    String.join accessors ++
    "\nfunc (o *" ++ nm ++ ") UnmarshalJSON(data []byte) error \x7b\n" ++
    "\tvar v struct \x7b\n" ++
    String.join shadowFields ++
    "\t\x7d\n" ++
    "\terr := json.Unmarshal(data, &v)\n" ++
    "\tif err != nil \x7b\n\t\treturn err\n\t\x7d\n" ++
    String.join assigns ++
    "\treturn nil\n\x7d\n"
  .ok (["encoding/json"], chunk)

/-- `renderScalar` from `gen.go`: fatal when no backing type is
configured, else a named type over the backing type. -/
def renderScalar (config : Config) (typ : SchemaType) : Except String String := do
  let nm ← getNameNullable config typ false
  match typ.name with
  | none => .error ("panic: nil name dereference")
  | some n =>
    let cfg := getScalarConfig config n
    if cfg.type = "" then
      .error ("the definition for the scalar named \"" ++ nm ++
        "\" could not be generated without a type")
    else
      .ok (descComment ("// ") typ.description ++ "type " ++ nm ++ " " ++ cfg.type ++ "\n")

/-- One accessor-requirement line of the generated interface
declaration (`renderInterface` first loop). -/
def interfaceFieldDecl (config : Config) (f : SchemaField) : Except String String := do
  let ft ← getName config f.type
  .ok (descComment ("\t// ") f.description ++ "\t" ++ titleWord f.name ++ "() " ++ ft ++ "\n")

/-- One generated accessor of the untyped fallback variant
(`renderInterface` second loop). -/
def interfaceAccessor (config : Config) (nm : String) (f : SchemaField) :
    Except String String := do
  let ft ← getName config f.type
  .ok ("\nfunc (m Untyped_" ++ nm ++ ") " ++ titleWord f.name ++ "() " ++ ft ++
    " \x7b\n\treturn m[\"" ++ f.name ++ "\"].(" ++ ft ++ ")\n\x7d\n")

/-- The (schema name, resolved non-nullable name) pair of one possible
type, the data a dispatch case of the polymorphic decode is built from
(`renderInterface` third loop reads `*pt.Name` and resolves `pt` with
`nullable = false`). -/
def resolvePossible (config : Config) (pt : SchemaType) : Except String (String × String) :=
  match pt.name with
  | none => .error ("panic: nil name dereference")
  | some pn => do
    let r ← getNameNullable config pt false
    .ok (pn, r)

/-- `renderInterface` from `gen.go`: the capability set, the untyped
fallback with its accessors, and the polymorphic decode function. -/
def renderInterface (config : Config) (typ : SchemaType) :
    Except String (List String × String) := do
  let nm ← getNameNullable config typ false
  let decl ←
    if typ.fields.isEmpty then
      Except.ok ("type " ++ nm ++ " interface\x7b\x7d\n")
    else do
      let fieldBlocks ← exMapM (interfaceFieldDecl config) typ.fields
      Except.ok ("type " ++ nm ++ " interface \x7b\n" ++
        String.intercalate ("\n") fieldBlocks ++ "\x7d\n")
  let accessors ← exMapM (interfaceAccessor config nm) typ.fields
  let prs ← exMapM (resolvePossible config) typ.possibleTypes
  let chunk :=
    descComment ("// ") typ.description ++
    decl ++
    "\ntype Untyped_" ++ nm ++ " map[string]interface\x7b\x7d\n" ++
    String.join accessors ++
    "\nfunc " ++ nm ++ "_UnmarshalJSON(data []byte) (" ++ nm ++ ", error) \x7b\n" ++
    "\tvar t struct \x7b\n\t\ttypename string `json:\"__typename\"`\n\t\x7d\n" ++
    "\terr := json.Unmarshal(data, &t)\n" ++
    "\tif err != nil \x7b\n\t\treturn nil, err\n\t\x7d\n" ++
    "\tswitch t.typename \x7b\n" ++
    String.join (prs.map (fun p => "\tcase \"" ++ p.1 ++ "\":\n\t\tvar v " ++ p.2 ++
      "\n\t\terr = json.Unmarshal(data, &v)\n\t\treturn v, err\n")) ++
    "\tcase \"\":\n\t\tvar v Untyped_" ++ nm ++
    "\n\t\terr = json.Unmarshal(data, &v)\n\t\treturn v, err\n" ++
    "\t\x7d\n" ++
    "\treturn nil, fmt.Errorf(\"unexpected __typename for interface %s: %s\", \"" ++ nm ++
    "\", t.typename)\n" ++
    "\x7d\n"
  .ok (["encoding/json", "fmt"], chunk)

/-- `renderUnion` from `gen.go`: the weakest abstraction. -/
def renderUnion (config : Config) (typ : SchemaType) : Except String String := do
  let nm ← getNameNullable config typ false
  .ok (descComment ("// ") typ.description ++ "type " ++ nm ++ " interface\x7b\x7d\n")

/-- One constant block of the generated enum (`renderEnum` loop
body). -/
def enumValueDecl (nm : String) (v : String × Option String) : String :=
  descComment ("\t// ") v.2 ++ "\t" ++ nm ++ "_" ++ v.1 ++ " " ++ nm ++ " = \"" ++ v.1 ++ "\"\n"

/-- `renderEnum` from `gen.go`: a string-backed named type plus one
constant per enum value in declaration order. -/
def renderEnum (config : Config) (typ : SchemaType) : Except String String := do
  let nm ← getNameNullable config typ false
  let consts :=
    if typ.enumValues.isEmpty then ""
    else "\nconst (\n" ++
      String.intercalate ("\n") (typ.enumValues.map (enumValueDecl nm)) ++ ")\n"
  .ok (descComment ("// ") typ.description ++ "type " ++ nm ++ " string\n" ++ consts)

/-- `OutputFile` from `gen.go`: the per-file accumulator. -/
structure OutputFile where
  Package : String
  Imports : List String
  Chunks : List String
deriving DecidableEq, Repr

/-- `OutputFile.HasImport`: membership by exact string equality. -/
def OutputFile.HasImport (f : OutputFile) (s : String) : Bool :=
  f.Imports.contains s

/-- The import-appending `for` loop inside `OutputFile.Add`. -/
def addImports (f : OutputFile) : List String → OutputFile
  | [] => f
  | im :: rest =>
    if f.HasImport im then addImports f rest
    else addImports { f with Imports := f.Imports ++ [im] } rest

/-- `OutputFile.Add` from `gen.go`: append each missing import, then
append the chunk. -/
def OutputFile.Add (f : OutputFile) (imports : List String) (chunk : String) : OutputFile :=
  let f1 := addImports f imports
  { f1 with Chunks := f1.Chunks ++ [chunk] }

/-- `OutputFiles` from `gen.go`, the map as an association list. -/
abbrev OutputFiles := List (String × OutputFile)

/-- `OutputFiles.Get`: return the accumulator registered for `file`, or
register a fresh one tagged with `pkg`.  The Go method mutates the map,
so the (possibly extended) map is returned alongside. -/
def OutputFiles.Get (fs : OutputFiles) (file pkg : String) : OutputFiles × OutputFile :=
  match List.lookup file fs with
  | some of => (fs, of)
  | none =>
    let of : OutputFile := { Package := pkg, Imports := [], Chunks := [] }
    (fs ++ [(file, of)], of)

/-- Store an updated accumulator back under its key (the effect of the
Go code mutating the `*OutputFile` returned by `Get`). -/
def OutputFiles.set (fs : OutputFiles) (file : String) (of : OutputFile) : OutputFiles :=
  fs.map (fun p => if p.1 = file then (file, of) else p)

/-- The package name hard-coded in `main`. -/
def pkgName : String := "fixmepkg"

/-- One iteration of the driver loop in `main`: placement, then render
by kind into the accumulator; the state also carries the `SKIP` lines
printed by the `default` branch. -/
def processType (config : Config) (st : OutputFiles × List String) (typ : SchemaType) :
    Except String (OutputFiles × List String) := do
  let file ← getFile config typ
  if file = "" then
    .ok st
  else
    let got := OutputFiles.Get st.1 file pkgName
    match typ.kind with
    | .object => do
      let (imps, chunk) ← renderObject config typ
      .ok (OutputFiles.set got.1 file (got.2.Add imps chunk), st.2)
    | .scalar => do
      let chunk ← renderScalar config typ
      .ok (OutputFiles.set got.1 file (got.2.Add [] chunk), st.2)
    | .enum => do
      let chunk ← renderEnum config typ
      .ok (OutputFiles.set got.1 file (got.2.Add [] chunk), st.2)
    | .interface => do
      let (imps, chunk) ← renderInterface config typ
      .ok (OutputFiles.set got.1 file (got.2.Add imps chunk), st.2)
    | .union => do
      let chunk ← renderUnion config typ
      .ok (OutputFiles.set got.1 file (got.2.Add [] chunk), st.2)
    | k =>
      match typ.name with
      | none => .error ("panic: nil name dereference")
      | some n => .ok (got.1, st.2 ++ ["SKIP " ++ k.str ++ " " ++ n])

/-- The driver loop of `main` from a given state. -/
def runTypesFrom (config : Config) (st : OutputFiles × List String) :
    List SchemaType → Except String (OutputFiles × List String)
  | [] => .ok st
  | t :: ts => do
    let st1 ← processType config st t
    runTypesFrom config st1 ts

/-- The driver loop of `main` over the schema's type list, starting
from the empty accumulator map. -/
def runTypes (config : Config) (types : List SchemaType) :
    Except String (OutputFiles × List String) :=
  runTypesFrom config ([], []) types

/-! ## Helper definitions and lemmas for the claims -/

/-- Modelled from the spec: "appends each import not already present
(membership by exact string equality) to the import list, preserving
first-seen order" — the sublist of `imports` that `Add` appends after
`existing`. -/
def specNewImports (existing : List String) : List String → List String
  | [] => []
  | im :: rest =>
    if existing.contains im then specNewImports existing rest
    else im :: specNewImports (existing ++ [im]) rest

/-- A sequence of `Add` calls applied to the empty accumulator. -/
def applyAdds (adds : List (List String × String)) : OutputFile :=
  adds.foldl (fun g a => g.Add a.1 a.2) { Package := "", Imports := [], Chunks := [] }

theorem addImports_Chunks (l : List String) (f : OutputFile) :
    (addImports f l).Chunks = f.Chunks := by
  induction l generalizing f with
  | nil => rfl
  | cons im rest ih =>
    unfold addImports
    cases h : f.HasImport im <;> simp [h, ih]

theorem addImports_Imports (l : List String) (f : OutputFile) :
    (addImports f l).Imports = f.Imports ++ specNewImports f.Imports l := by
  induction l generalizing f with
  | nil => simp [addImports, specNewImports]
  | cons im rest ih =>
    unfold addImports specNewImports
    cases h : f.HasImport im with
    | true =>
      have hmem : im ∈ f.Imports := by
        have h' : f.Imports.contains im = true := h
        simpa using h'
      simp [h, hmem, ih]
    | false =>
      have hmem : im ∉ f.Imports := by
        have h' : f.Imports.contains im = false := h
        simpa using h'
      simp [h, hmem, ih, List.append_assoc]

theorem specNewImports_nodup (l : List String) (ex : List String) (h : ex.Nodup) :
    (ex ++ specNewImports ex l).Nodup := by
  induction l generalizing ex with
  | nil => simpa [specNewImports] using h
  | cons im rest ih =>
    unfold specNewImports
    cases hc : ex.contains im with
    | true =>
      have hmem : im ∈ ex := by simpa using hc
      simpa [hmem] using ih ex h
    | false =>
      have hmem : im ∉ ex := by simpa using hc
      have h2 : (ex ++ [im]).Nodup := by simp [List.nodup_append, h, hmem]
      simpa [hmem, List.append_assoc] using ih (ex ++ [im]) h2

theorem foldl_Add_nodup (adds : List (List String × String)) :
    ∀ f : OutputFile, f.Imports.Nodup →
      (adds.foldl (fun g a => g.Add a.1 a.2) f).Imports.Nodup := by
  induction adds with
  | nil => intro f h; simpa using h
  | cons a rest ih =>
    intro f h
    apply ih
    have he : (f.Add a.1 a.2).Imports = f.Imports ++ specNewImports f.Imports a.1 := by
      simp [OutputFile.Add, addImports_Imports]
    rw [he]
    exact specNewImports_nodup _ _ h

theorem exMapM_ok_get (f : α → Except String β) (l : List α) (r : List β)
    (h : exMapM f l = .ok r) :
    r.length = l.length ∧ ∀ i (hi : i < l.length) (hj : i < r.length),
      f (l.get ⟨i, hi⟩) = .ok (r.get ⟨i, hj⟩) := by
  induction l generalizing r with
  | nil =>
    simp [exMapM] at h
    subst h
    simp
  | cons a as ih =>
    unfold exMapM at h
    cases hfa : f a with
    | error e =>
      rw [hfa] at h
      have h2 : (Except.error e : Except String (List β)) = .ok r := h
      exact absurd h2 (by simp)
    | ok b =>
      cases hrest : exMapM f as with
      | error e =>
        rw [hfa, hrest] at h
        have h2 : (Except.error e : Except String (List β)) = .ok r := h
        exact absurd h2 (by simp)
      | ok bs =>
        rw [hfa, hrest] at h
        have h2 : (Except.ok (b :: bs) : Except String (List β)) = .ok r := h
        have h3 : b :: bs = r := by injection h2
        subst h3
        obtain ⟨hlen, hget⟩ := ih bs hrest
        refine ⟨by simpa using hlen, ?_⟩
        intro i hi hj
        cases i with
        | zero => simpa using hfa
        | succ m =>
          simpa using hget m (by simpa using hi) (by simpa using hj)

theorem bind_ok_eq (a : α) (k : α → Except String β) :
    (Except.ok a >>= k : Except String β) = k a := rfl

theorem bind_error_eq (e : String) (k : α → Except String β) :
    (Except.error e >>= k : Except String β) = Except.error e := rfl

/-- Shared helper: resolution of a Scalar whose (possibly defaulted)
config gives a predeclared rename and no conflicting backing type. -/
theorem scalar_predeclared_ok (config : Config) (n : String) (d : Option String)
    (flds : List SchemaField) (ifs pts : List SchemaType) (oft : Option SchemaType)
    (evs : List (String × Option String)) (b : Bool)
    (h1 : (getScalarConfig config n).name ≠ "")
    (h2 : isPredeclaredType (getScalarConfig config n).name = true)
    (h3 : (getScalarConfig config n).type = "" ∨
      (getScalarConfig config n).type = (getScalarConfig config n).name) :
    getNameNullable config (.mk .scalar (some n) d flds ifs pts oft evs) b
      = .ok ((if b then "*" else "") ++ (getScalarConfig config n).name) := by
  have hcond : ¬((getScalarConfig config n).type ≠ "" ∧
      (getScalarConfig config n).type ≠ (getScalarConfig config n).name) := by
    rcases h3 with h | h <;> simp [h]
  simp [getNameNullable, h1, h2, hcond]

/-! ## Claim theorems -/

/-- C5: for every type `T` and every nullability flag `b`, resolving a
`NonNull` wrapper around `T` with `nullable = b` is exactly the
resolution of `T` with `nullable = false`: each `NonNull` wrapper
strips nullability exactly once. -/
theorem getNameNullable_nonNull (config : Config) (t : SchemaType) (nm d : Option String)
    (flds : List SchemaField) (ifs pts : List SchemaType)
    (evs : List (String × Option String)) (b : Bool) :
    getNameNullable config (.mk .nonNull nm d flds ifs pts (some t) evs) b
      = getNameNullable config t false := by
  simp [getNameNullable]

/-- C1 (amended): for every `List(T)` node and every nullability flag
`b`, the resolved name is the sequence-of wrapper `[]` around
`resolveName(T, nullable = true)`, with NO nullability marker applied
to the list itself — the caller's `nullable` argument is ignored by the
List branch. -/
theorem getNameNullable_list_elem (config : Config) (t : SchemaType) (nm d : Option String)
    (flds : List SchemaField) (ifs pts : List SchemaType)
    (evs : List (String × Option String)) (b : Bool) :
    getNameNullable config (.mk .list nm d flds ifs pts (some t) evs) b
      = (getNameNullable config t true).map (fun s => "[]" ++ s) := by
  cases h : getNameNullable config t true <;> simp [getNameNullable, h, Except.map]

/-- C1 counterexample: for `List(Foo)` with `Foo` an Object and
`nullable = true`, the resolver yields `[]*Foo`, not the
claimed `*[]*Foo`; the result is the same for `nullable = false`, so
no "may be absent" marker is ever applied to the list as a whole. -/
theorem list_marker_counterexample :
    getNameNullable emptyConfig (listOf (namedType .object ("Foo"))) true = .ok ("[]*Foo")
    ∧ getNameNullable emptyConfig (listOf (namedType .object ("Foo"))) false = .ok ("[]*Foo")
    ∧ ("[]*Foo" : String) ≠ "*[]*Foo" := by
  exact ⟨rfl, rfl, by decide⟩

/-- C4 (amended): for the scalar named `ID` with no user-supplied
override, the built-in default supplies a backing type `string` but no
rename, so name resolution falls through to the scalar's own schema
name and yields `ID`; the string identifier appears only as the backing
type of the rendered declaration `type ID string`. -/
theorem getNameNullable_id_default :
    getNameNullable emptyConfig (namedType .scalar ("ID")) false = .ok ("ID")
    ∧ (getScalarConfig emptyConfig ("ID")).type = "string"
    ∧ renderScalar emptyConfig (namedType .scalar ("ID")) = .ok ("type ID string\n") := by
  exact ⟨rfl, rfl, rfl⟩

/-- C4 counterexample: resolving scalar `ID` with no override yields
the identifier `ID`, not the claimed `string`. -/
theorem id_default_counterexample :
    getNameNullable emptyConfig (namedType .scalar ("ID")) false = .ok ("ID")
    ∧ ("ID" : String) ≠ "string" := by
  exact ⟨rfl, by decide⟩

/-- C3 (amended): for every scalar whose (possibly defaulted) config
rename is a predeclared identifier with no conflicting backing type —
in particular `Int` with no override, which defaults to `int32` — the
resolver returns the predeclared identifier verbatim when
`nullable = false` and prefixed with the generic `*` nullability marker
when `nullable = true`; the identifier itself is never renamed. -/
theorem getNameNullable_predeclared_scalar (config : Config) (n : String) (d : Option String)
    (flds : List SchemaField) (ifs pts : List SchemaType) (oft : Option SchemaType)
    (evs : List (String × Option String)) (b : Bool)
    (h1 : (getScalarConfig config n).name ≠ "")
    (h2 : isPredeclaredType (getScalarConfig config n).name = true)
    (h3 : (getScalarConfig config n).type = "" ∨
      (getScalarConfig config n).type = (getScalarConfig config n).name) :
    getNameNullable config (.mk .scalar (some n) d flds ifs pts oft evs) b
      = .ok ((if b then "*" else "") ++ (getScalarConfig config n).name) :=
  scalar_predeclared_ok config n d flds ifs pts oft evs b h1 h2 h3

/-- Witness for C3: scalar `Int` with the empty config and
`nullable = true` resolves to the marker-prefixed `int32`. -/
theorem getNameNullable_predeclared_scalar_witness :
    getNameNullable emptyConfig (.mk .scalar (some ("Int")) none [] [] [] none []) true
      = .ok ((if true then "*" else "") ++ (getScalarConfig emptyConfig ("Int")).name) :=
  getNameNullable_predeclared_scalar emptyConfig ("Int") none [] [] [] none [] true
    (by decide) (by decide) (Or.inl (by decide))

/-- C3 counterexample: with `nullable = true`, scalar `Int` resolves to
`*int32`, so the predeclared identifier is NOT returned verbatim for
every value of the nullable argument. -/
theorem predeclared_marker_counterexample :
    getNameNullable emptyConfig (namedType .scalar ("Int")) true = .ok ("*int32")
    ∧ ("*int32" : String) ≠ "int32" := by
  exact ⟨rfl, by decide⟩

/-- C6: for every scalar whose (possibly defaulted) config gives a
predeclared rename: if a backing type is also given and differs from
the rename, resolution fails fatally with a message reporting the
offending name; if the backing type is absent or equal to the rename,
resolution succeeds with the predeclared identifier (marker-prefixed
exactly when `nullable` is true). -/
theorem getNameNullable_scalar_rename_conflict (config : Config) (n : String)
    (d : Option String) (flds : List SchemaField) (ifs pts : List SchemaType)
    (oft : Option SchemaType) (evs : List (String × Option String)) (b : Bool)
    (h1 : (getScalarConfig config n).name ≠ "")
    (h2 : isPredeclaredType (getScalarConfig config n).name = true) :
    ((getScalarConfig config n).type ≠ "" ∧
        (getScalarConfig config n).type ≠ (getScalarConfig config n).name →
      getNameNullable config (.mk .scalar (some n) d flds ifs pts oft evs) b
        = .error ("the scalar named \"" ++ (getScalarConfig config n).name ++
            "\" could not have the type \"" ++ (getScalarConfig config n).type ++ "\""))
    ∧ ((getScalarConfig config n).type = "" ∨
        (getScalarConfig config n).type = (getScalarConfig config n).name →
      getNameNullable config (.mk .scalar (some n) d flds ifs pts oft evs) b
        = .ok ((if b then "*" else "") ++ (getScalarConfig config n).name)) := by
  constructor
  · intro hc
    simp [getNameNullable, h1, h2, hc]
  · intro h3
    exact scalar_predeclared_ok config n d flds ifs pts oft evs b h1 h2 h3

/-- A config whose author asserts two different meanings for the
predeclared name `int64`: the scalar `UUID` is renamed to `int64` but
also given the backing type `string`. -/
def conflictConfig : Config :=
  { types := [],
    scalars := [("UUID", { name := "int64", imp := "", type := "string", file := "" })] }

/-- Witness for C6: under `conflictConfig`, resolving the scalar `UUID`
fails fatally with a message naming the offending predeclared name. -/
theorem getNameNullable_scalar_rename_conflict_witness :
    getNameNullable conflictConfig (.mk .scalar (some ("UUID")) none [] [] [] none []) true
      = .error ("the scalar named \"" ++ (getScalarConfig conflictConfig ("UUID")).name ++
          "\" could not have the type \"" ++ (getScalarConfig conflictConfig ("UUID")).type ++
          "\"") :=
  (getNameNullable_scalar_rename_conflict conflictConfig ("UUID") none [] [] [] none [] true
    (by decide) (by decide)).1 ⟨by decide, by decide⟩

/-- C2 (amended): a schema type whose kind is none of the five rendered
kinds and not InputObject (i.e. a List or NonNull wrapper at the top
level) whose resolved non-nullable name is not predeclared makes
placement fail fatally, and the driver run aborts at that type instead
of reporting it non-fatally and continuing. -/
theorem processType_wrapper_kind_fatal (config : Config) (typ : SchemaType) (nm : String)
    (hk : typ.kind = TypeKind.list ∨ typ.kind = TypeKind.nonNull)
    (hn : getNameNullable config typ false = .ok nm)
    (hp : isPredeclaredType nm = false) :
    getFile config typ = .error ("panic: don't know how to get file")
    ∧ ∀ (st : OutputFiles × List String) (rest : List SchemaType),
        runTypesFrom config st (typ :: rest) = .error ("panic: don't know how to get file") := by
  have hfile : getFile config typ = .error ("panic: don't know how to get file") := by
    cases typ with
    | mk k n d flds ifs pts oft evs =>
      simp only [SchemaType.kind] at hk
      unfold getFile
      rw [hn]
      rcases hk with h | h <;> subst h <;>
        simp [hp, SchemaType.kind, bind_ok_eq]
  refine ⟨hfile, ?_⟩
  intro st rest
  have hpt : processType config st typ = .error ("panic: don't know how to get file") := by
    unfold processType
    rw [hfile]
    rfl
  unfold runTypesFrom
  rw [hpt]
  rfl

/-- Witness for C2 (amended): placement of a top-level `NonNull(Foo)`
node fails fatally. -/
theorem processType_wrapper_kind_fatal_witness :
    getFile emptyConfig (nonNullOf (namedType .object ("Foo")))
      = .error ("panic: don't know how to get file") :=
  (processType_wrapper_kind_fatal emptyConfig (nonNullOf (namedType .object ("Foo")))
    ("Foo") (Or.inr rfl) rfl rfl).1

/-- C2 counterexample: running the driver over a schema containing a
top-level `NonNull(Foo)` type — a kind that is neither rendered nor
InputObject — aborts the whole run with a fatal error; it is not
reported non-fatally and processing does not continue. -/
theorem driver_unsupported_kind_counterexample :
    runTypes emptyConfig [nonNullOf (namedType .object ("Foo"))]
      = .error ("panic: don't know how to get file") := rfl

/-- C7: placement outcomes per kind, for every type whose non-nullable
resolution succeeds: predeclared resolved name → skip (empty string);
Scalar → the config's destination file if set, else `scalars.go`;
Object → `types.go`; Enum → `enums.go`; Interface → `interfaces.go`;
Union → `unions.go`; InputObject → skip; any other kind (List,
NonNull) reaching the function is a fatal failure. -/
theorem getFile_cases (config : Config) (typ : SchemaType) (nm : String)
    (h : getNameNullable config typ false = .ok nm) :
    (isPredeclaredType nm = true → getFile config typ = .ok (""))
    ∧ (isPredeclaredType nm = false →
        ((typ.kind = TypeKind.scalar → ∃ n, typ.name = some n ∧
            getFile config typ = .ok (if (getScalarConfig config n).file ≠ ""
              then (getScalarConfig config n).file else "scalars.go"))
        ∧ (typ.kind = TypeKind.object → getFile config typ = .ok ("types.go"))
        ∧ (typ.kind = TypeKind.enum → getFile config typ = .ok ("enums.go"))
        ∧ (typ.kind = TypeKind.interface → getFile config typ = .ok ("interfaces.go"))
        ∧ (typ.kind = TypeKind.union → getFile config typ = .ok ("unions.go"))
        ∧ (typ.kind = TypeKind.inputObject → getFile config typ = .ok (""))
        ∧ (typ.kind = TypeKind.list ∨ typ.kind = TypeKind.nonNull →
            getFile config typ = .error ("panic: don't know how to get file")))) := by
  cases typ with
  | mk k n d flds ifs pts oft evs =>
    constructor
    · intro hp
      unfold getFile
      rw [h]
      simp [hp, bind_ok_eq]
    · intro hp
      refine ⟨?_, ?_, ?_, ?_, ?_, ?_, ?_⟩
      · intro hk
        simp only [SchemaType.kind] at hk
        subst hk
        cases n with
        | none => exact absurd h (by simp [getNameNullable])
        | some n0 =>
          refine ⟨n0, rfl, ?_⟩
          unfold getFile
          rw [h]
          by_cases hf : (getScalarConfig config n0).file ≠ "" <;>
            simp [hp, hf, SchemaType.kind, SchemaType.name, bind_ok_eq]
      all_goals
        intro hk
      case _ | _ | _ | _ | _ =>
        simp only [SchemaType.kind] at hk
        subst hk
        unfold getFile
        rw [h]
        simp [hp, SchemaType.kind, bind_ok_eq]
      · simp only [SchemaType.kind] at hk
        unfold getFile
        rw [h]
        rcases hk with hk | hk <;> subst hk <;>
          simp [hp, SchemaType.kind, bind_ok_eq]

/-- A config that sends the scalar `Date` into a custom destination
file. -/
def fileConfig : Config :=
  { types := [],
    scalars := [("Date", { name := "", imp := "", type := "time.Time", file := "time.go" })] }

/-- Witness for C7: a Scalar with a configured destination file is
placed into that file. -/
theorem getFile_cases_witness :
    ∃ n, (namedType .scalar ("Date")).name = some n ∧
      getFile fileConfig (namedType .scalar ("Date"))
        = .ok (if (getScalarConfig fileConfig n).file ≠ ""
            then (getScalarConfig fileConfig n).file else "scalars.go") :=
  (((getFile_cases fileConfig (namedType .scalar ("Date")) ("Date") rfl).2 rfl).1) rfl

/-- C8: `Add` appends the chunk at the end of the chunk list and
appends exactly the imports not already present, by exact string
equality and in first-seen order (`specNewImports`); consequently
the import list of an accumulator built from the empty one by any
sequence of `Add` calls never contains duplicates. -/
theorem outputFile_Add_spec :
    (∀ (f : OutputFile) (imports : List String) (chunk : String),
      (f.Add imports chunk).Chunks = f.Chunks ++ [chunk]
      ∧ (f.Add imports chunk).Imports = f.Imports ++ specNewImports f.Imports imports)
    ∧ ∀ adds : List (List String × String), (applyAdds adds).Imports.Nodup := by
  constructor
  · intro f imports chunk
    constructor
    · simp [OutputFile.Add, addImports_Chunks]
    · simp [OutputFile.Add, addImports_Imports]
  · intro adds
    exact foldl_Add_nodup adds _ (by simp)

/-- C10: `Get` on a file identifier already registered in the map
returns the existing accumulator unchanged — `Package`, `Imports` and
`Chunks` included — and leaves the map unchanged; the package argument
is ignored. -/
theorem outputFiles_Get_existing (fs : OutputFiles) (file pkg : String) (of : OutputFile)
    (h : List.lookup file fs = some of) :
    OutputFiles.Get fs file pkg = (fs, of) := by
  simp [OutputFiles.Get, h]

/-- Witness for C10: `Get` with a different package argument returns
the registered accumulator with its original `Package`, `Imports` and
`Chunks`, and the map itself is returned unchanged. -/
theorem outputFiles_Get_existing_witness :
    OutputFiles.Get
        [(("types.go" : String),
          ({ Package := "fixmepkg", Imports := ["fmt"], Chunks := ["x"] } : OutputFile))]
        ("types.go") ("otherpkg")
      = ([(("types.go" : String),
          ({ Package := "fixmepkg", Imports := ["fmt"], Chunks := ["x"] } : OutputFile))],
         { Package := "fixmepkg", Imports := ["fmt"], Chunks := ["x"] }) :=
  outputFiles_Get_existing _ _ _ _ rfl

/-- C9: for every Interface type whose parts resolve, the rendered
chunk ends with the polymorphic-decode function, whose generated text:
probes only the reserved `__typename` discriminator field; contains one
dispatch case per declared possible type, in declaration order (the
`i`-th case is built from the `i`-th possible type's schema name and
resolved concrete type, into which the full payload `data` is
decoded); decodes the full payload into the untyped fallback
`Untyped_<name>` when the discriminator is empty; and otherwise returns
an error whose text names the interface and formats the unrecognized
discriminator value `t.typename`. -/
theorem renderInterface_decode (config : Config) (typ : SchemaType) (nm : String)
    (declBlocks accs : List String) (prs : List (String × String))
    (h1 : getNameNullable config typ false = .ok nm)
    (h2 : exMapM (interfaceFieldDecl config) typ.fields = .ok declBlocks)
    (h3 : exMapM (interfaceAccessor config nm) typ.fields = .ok accs)
    (h4 : exMapM (resolvePossible config) typ.possibleTypes = .ok prs) :
    (prs.length = typ.possibleTypes.length
     ∧ ∀ i (hi : i < typ.possibleTypes.length) (hj : i < prs.length),
        resolvePossible config (typ.possibleTypes.get ⟨i, hi⟩) = .ok (prs.get ⟨i, hj⟩))
    ∧ ∃ pre, renderInterface config typ = .ok (["encoding/json", "fmt"],
        pre ++
        ("\nfunc " ++ nm ++ "_UnmarshalJSON(data []byte) (" ++ nm ++ ", error) \x7b\n" ++
         "\tvar t struct \x7b\n\t\ttypename string `json:\"__typename\"`\n\t\x7d\n" ++
         "\terr := json.Unmarshal(data, &t)\n" ++
         "\tif err != nil \x7b\n\t\treturn nil, err\n\t\x7d\n" ++
         "\tswitch t.typename \x7b\n" ++
         String.join (prs.map (fun p => "\tcase \"" ++ p.1 ++ "\":\n\t\tvar v " ++ p.2 ++
           "\n\t\terr = json.Unmarshal(data, &v)\n\t\treturn v, err\n")) ++
         "\tcase \"\":\n\t\tvar v Untyped_" ++ nm ++
         "\n\t\terr = json.Unmarshal(data, &v)\n\t\treturn v, err\n" ++
         "\t\x7d\n" ++
         "\treturn nil, fmt.Errorf(\"unexpected __typename for interface %s: %s\", \"" ++ nm ++
         "\", t.typename)\n" ++
         "\x7d\n")) := by
  constructor
  · exact exMapM_ok_get _ _ _ h4
  · cases typ with
    | mk k n d flds ifs pts oft evs =>
      simp only [SchemaType.fields, SchemaType.possibleTypes] at h2 h3 h4
      unfold renderInterface
      rw [h1]
      simp only [bind_ok_eq, SchemaType.fields, SchemaType.possibleTypes,
        SchemaType.description]
      cases hfe : flds.isEmpty with
      | true =>
        refine ⟨descComment ("// ") d ++ ("type " ++ nm ++ " interface\x7b\x7d\n") ++
          "\ntype Untyped_" ++ nm ++ " map[string]interface\x7b\x7d\n" ++
          String.join accs, ?_⟩
        rw [h2, h3, h4]
        simp [bind_ok_eq, String.append_assoc]
      | false =>
        refine ⟨descComment ("// ") d ++ ("type " ++ nm ++ " interface \x7b\n" ++
          String.intercalate ("\n") declBlocks ++ "\x7d\n") ++
          "\ntype Untyped_" ++ nm ++ " map[string]interface\x7b\x7d\n" ++
          String.join accs, ?_⟩
        rw [h2, h3, h4]
        simp [bind_ok_eq, String.append_assoc]

/-- An `Actor` interface with no declared fields and possible types
`User` and `Bot`. -/
def actorInterface : SchemaType :=
  .mk .interface (some ("Actor")) none [] []
    [namedType .object ("User"), namedType .object ("Bot")] none []

/-- Witness for C9: the rendered `Actor` chunk ends with a decode
function dispatching on `User` then `Bot`, with the empty-discriminator
fallback and the error line naming `Actor`. -/
theorem renderInterface_decode_witness :
    ∃ pre, renderInterface emptyConfig actorInterface = .ok (["encoding/json", "fmt"],
      pre ++
      ("\nfunc " ++ "Actor" ++ "_UnmarshalJSON(data []byte) (" ++ "Actor" ++ ", error) \x7b\n" ++
       "\tvar t struct \x7b\n\t\ttypename string `json:\"__typename\"`\n\t\x7d\n" ++
       "\terr := json.Unmarshal(data, &t)\n" ++
       "\tif err != nil \x7b\n\t\treturn nil, err\n\t\x7d\n" ++
       "\tswitch t.typename \x7b\n" ++
       String.join (([(("User" : String), ("User" : String)),
           (("Bot" : String), ("Bot" : String))]).map
         (fun p => "\tcase \"" ++ p.1 ++ "\":\n\t\tvar v " ++ p.2 ++
           "\n\t\terr = json.Unmarshal(data, &v)\n\t\treturn v, err\n")) ++
       "\tcase \"\":\n\t\tvar v Untyped_" ++ "Actor" ++
       "\n\t\terr = json.Unmarshal(data, &v)\n\t\treturn v, err\n" ++
       "\t\x7d\n" ++
       "\treturn nil, fmt.Errorf(\"unexpected __typename for interface %s: %s\", \"" ++ "Actor" ++
       "\", t.typename)\n" ++
       "\x7d\n")) :=
  (renderInterface_decode emptyConfig actorInterface ("Actor") [] []
    [(("User" : String), ("User" : String)), (("Bot" : String), ("Bot" : String))]
    rfl rfl rfl rfl).2
